import Mathlib

/-!
Verification of the kplay WAV player (src/kplay.cpp) against its
natural-language specification.

The C++ source is shallowly embedded:
* the `wav_header` struct becomes the structure `WavHeaderRec` with `Nat`
  fields (the fields are read little-endian from the file; the `memcmp`
  of `data_id` against the bytes "data" is equivalent to comparing the
  little-endian `uint32` value against `ID_DATA`);
* the `std::ifstream` read cursor and fail/eof state of `WavFile` become
  the structure `WavStream` (`payload` holds the bytes after the fixed
  44-byte header, `pos` is the cursor offset inside the payload,
  `failed` models the stream fail state after a short or empty read);
* `double` arithmetic on volumes, pitch and tempo is modelled exactly
  over `ℚ` (all constants 0.01, 1.01, 0.99, 0.1, 100.0, 30.0 are exact
  decimal literals);
* the message-queue switch of `Player::MsgHdl` becomes the pure
  function `onKey` returning the new player state together with the
  list of parameter pushes issued to the lark route;
* `Player::OnStopped` becomes `onStopped`, returning the list of
  messages it enqueues;
* the keyboard-reading loop of `Player::Go` becomes `keyboardLoop` over
  a finite list of `getchar` results.
-/

namespace KPlay

/-- Magic value `ID_RIFF` (kplay.cpp line 50): "RIFF" read little-endian. -/
def ID_RIFF : Nat := 0x46464952

/-- Magic value `ID_WAVE` (kplay.cpp line 51): "WAVE" read little-endian. -/
def ID_WAVE : Nat := 0x45564157

/-- Magic value `ID_DATA` (kplay.cpp line 53): "data" read little-endian. -/
def ID_DATA : Nat := 0x61746164

/-- `FORMAT_PCM` (kplay.cpp line 54). -/
def FORMAT_PCM : Nat := 1

/-- The `wav_header` struct (kplay.cpp lines 56-70).  All fields are
unsigned little-endian integers; the struct occupies exactly 44 bytes. -/
structure WavHeaderRec where
  riff_id : Nat
  riff_sz : Nat
  riff_fmt : Nat
  fmt_id : Nat
  fmt_sz : Nat
  audio_format : Nat
  num_channels : Nat
  sample_rate : Nat
  byte_rate : Nat
  block_align : Nat
  bits_per_sample : Nat
  data_id : Nat
  data_sz : Nat
deriving DecidableEq

/-- Size in bytes of `struct wav_header`: 4+4+4+4+4+2+2+4+4+2+2+4+4 = 44. -/
def wavHeaderSize : Nat := 44

/-- The distinct failure exits of `WavFile::Open` (each prints its own
message and returns -1). -/
inductive OpenErr where
  | cantReadHeader
  | notRiffWave
  | notPcm
  | noDataChunk
  | tooManyChannels
deriving DecidableEq

/-- The state `WavFile::Open` leaves behind on success: `m_sampleSize`
and `m_pcmBytes` (kplay.cpp lines 141-145). -/
structure OpenOk where
  sampleSize : Nat
  pcmBytes : Int
deriving DecidableEq

/-- `WavFile::Open` (kplay.cpp lines 106-150), given the total byte
length of the file and the parsed 44-byte header.  The header read
fails when the file holds fewer than 44 bytes; then the magic, PCM,
data-chunk and channel-count checks run in source order.  On success
the cursor is left at offset 44 (start of the payload). -/
def WavFile.Open (fileLen : Nat) (h : WavHeaderRec) : Except OpenErr OpenOk :=
  if fileLen < wavHeaderSize then Except.error OpenErr.cantReadHeader
  else if h.riff_id ≠ ID_RIFF ∨ h.riff_fmt ≠ ID_WAVE then Except.error OpenErr.notRiffWave
  else if h.audio_format ≠ FORMAT_PCM then Except.error OpenErr.notPcm
  else if h.data_id ≠ ID_DATA then Except.error OpenErr.noDataChunk
  else if h.num_channels > 2 then Except.error OpenErr.tooManyChannels
  else Except.ok
    { sampleSize := h.bits_per_sample / 8 * h.num_channels
      pcmBytes := (fileLen : Int) - (wavHeaderSize : Int) }

/-- The read-relevant state of an opened `WavFile`: the payload bytes
(file content after the 44-byte header), the read cursor as an offset
into the payload, and the stream fail flag (set once a read came up
short or empty; cleared only by `m_fin.clear()` in `SeekToBegin`). -/
structure WavStream where
  payload : List Nat
  pos : Nat
  failed : Bool
deriving DecidableEq

/-- Result of one `WavFile::Produce` call: either the `samples` return
value together with the bytes written into the destination buffer, or
`lark::E_EOF`. -/
inductive ProduceResult where
  | ok (retSamples : Nat) (data : List Nat)
  | eof
deriving DecidableEq

/-- `WavFile::Produce` (kplay.cpp lines 238-263).  `requestBytes =
m_sampleSize * samples`.  A full read returns `samples`; a short read
with at least one byte zero-fills the tail of the buffer and still
returns `samples` (leaving the stream failed); a read yielding no bytes
returns `lark::E_EOF` (also leaving the stream failed). -/
def WavFile.Produce (sampleSize samples : Nat) (s : WavStream) : WavStream × ProduceResult :=
  let req := sampleSize * samples
  if s.failed then
    ({ s with failed := true }, ProduceResult.eof)
  else if req ≤ s.payload.length - s.pos then
    ({ s with pos := s.pos + req },
      ProduceResult.ok samples ((s.payload.drop s.pos).take req))
  else if s.pos < s.payload.length then
    ({ s with pos := s.payload.length, failed := true },
      ProduceResult.ok samples
        (s.payload.drop s.pos ++ List.replicate (req - (s.payload.length - s.pos)) 0))
  else
    ({ s with failed := true }, ProduceResult.eof)

/-- `WavFile::SeekToBegin` (kplay.cpp lines 152-157): clears the stream
state and moves the cursor back to offset 44, i.e. payload offset 0. -/
def WavFile.SeekToBegin (s : WavStream) : WavStream :=
  { s with pos := 0, failed := false }

/-- The stream state right after a successful `WavFile::Open` of a file
whose payload (bytes after the header) is `payload`: cursor at payload
offset 0, no fail state. -/
def openStream (payload : List Nat) : WavStream :=
  { payload := payload, pos := 0, failed := false }

/-- Iterate `WavFile::Produce` over a list of per-call sample counts,
collecting the individual results. -/
def produceSeq (sampleSize : Nat) : WavStream → List Nat → List ProduceResult
  | _, [] => []
  | s, n :: ns =>
    (WavFile.Produce sampleSize n s).2 ::
      produceSeq sampleSize (WavFile.Produce sampleSize n s).1 ns

/-- C1: for every call to `Produce(blockSizeInSamples)` on a
non-failed stream: if the
read yields fewer bytes than requested but more than zero, the
remainder of the block is zero-filled and the call reports success
(returns the full sample count); if the read yields zero bytes (and at
least one byte was requested), the call reports end-of-stream. -/
theorem produce_short_read_policy (sampleSize samples : Nat) (s : WavStream)
    (hf : s.failed = false) :
    (0 < s.payload.length - s.pos → s.payload.length - s.pos < sampleSize * samples →
      WavFile.Produce sampleSize samples s =
        ({ s with pos := s.payload.length, failed := true },
          ProduceResult.ok samples
            (s.payload.drop s.pos ++
              List.replicate (sampleSize * samples - (s.payload.length - s.pos)) 0))) ∧
    (s.payload.length - s.pos = 0 → 0 < sampleSize * samples →
      (WavFile.Produce sampleSize samples s).2 = ProduceResult.eof) := by
  constructor
  · intro h1 h2
    have hlt : s.pos < s.payload.length := Nat.lt_of_sub_pos h1
    simp only [WavFile.Produce, hf, Bool.false_eq_true, if_false,
      Nat.not_le.mpr h2, if_neg, hlt, if_pos]
  · intro h0 hreq
    have hge : s.payload.length ≤ s.pos := Nat.le_of_sub_eq_zero h0
    have hnlt : ¬ s.pos < s.payload.length := Nat.not_lt.mpr hge
    have hnle : ¬ sampleSize * samples ≤ s.payload.length - s.pos := by
      rw [h0]; exact Nat.not_le.mpr hreq
    simp [WavFile.Produce, hf, hnlt, hnle]

/-- Witness for C1 at a concrete input: payload `[1,2,3]`, cursor 0,
2 bytes per sample, 2 samples requested (4 bytes): the read yields 3
bytes, the block is padded with one zero byte and the call returns the
full sample count 2; a second call from the resulting failed stream at
the payload end reports end-of-stream. -/
theorem produce_short_read_policy_witness :
    WavFile.Produce 2 2 { payload := [1, 2, 3], pos := 0, failed := false } =
      ({ payload := [1, 2, 3], pos := 3, failed := true },
        ProduceResult.ok 2 [1, 2, 3, 0]) ∧
    (WavFile.Produce 2 2 { payload := [1, 2, 3], pos := 3, failed := false }).2 =
      ProduceResult.eof := by
  constructor
  · have h := (produce_short_read_policy 2 2
      { payload := [1, 2, 3], pos := 0, failed := false } rfl).1
      (by decide) (by decide)
    simpa using h
  · exact (produce_short_read_policy 2 2
      { payload := [1, 2, 3], pos := 3, failed := false } rfl).2
      (by decide) (by decide)

/-- C8: `SeekToBegin` followed by any sequence of `Produce` calls
yields byte-for-byte the same block sequence as the same `Produce`
calls issued right after a fresh `Open` of the same file (`s` is any
stream state over that file, e.g. the state after arbitrary prior
`Produce` calls). -/
theorem seek_then_produce_eq_fresh_open (sampleSize : Nat) (s : WavStream)
    (reqs : List Nat) :
    produceSeq sampleSize (WavFile.SeekToBegin s) reqs =
      produceSeq sampleSize (openStream s.payload) reqs := by
  have h : WavFile.SeekToBegin s = openStream s.payload := by
    cases s; rfl
  rw [h]

/-- C7 counterexample: a header with correct RIFF/WAVE magic, PCM
encoding, a data chunk and `num_channels = 0` is accepted by
`WavFile::Open` (the code only rejects more than 2 channels), although
its channel count is not in {1,2}. -/
theorem open_accepts_zero_channels :
    WavFile.Open 100
      { riff_id := ID_RIFF, riff_sz := 92, riff_fmt := ID_WAVE,
        fmt_id := 0x20746d66, fmt_sz := 16, audio_format := FORMAT_PCM,
        num_channels := 0, sample_rate := 44100, byte_rate := 0,
        block_align := 0, bits_per_sample := 16, data_id := ID_DATA,
        data_sz := 56 } =
      Except.ok { sampleSize := 0, pcmBytes := 56 } ∧
    (0 : Nat) ≠ 1 ∧ (0 : Nat) ≠ 2 := by
  refine ⟨?_, by decide, by decide⟩
  rfl

/-- C7 (amended): `Open` succeeds exactly on headers with correct
RIFF/WAVE magic values, PCM encoding, a data chunk, and channel count
at most 2 (not necessarily in {1,2}), provided the 44-byte header
could be read at all. -/
theorem open_ok_iff (fileLen : Nat) (h : WavHeaderRec)
    (hlen : wavHeaderSize ≤ fileLen) :
    (∃ r, WavFile.Open fileLen h = Except.ok r) ↔
      (h.riff_id = ID_RIFF ∧ h.riff_fmt = ID_WAVE ∧
        h.audio_format = FORMAT_PCM ∧ h.data_id = ID_DATA ∧
        h.num_channels ≤ 2) := by
  have hnlt : ¬ fileLen < wavHeaderSize := Nat.not_lt.mpr hlen
  constructor
  · rintro ⟨r, hr⟩
    simp only [WavFile.Open, hnlt, if_false] at hr
    by_cases h1 : h.riff_id ≠ ID_RIFF ∨ h.riff_fmt ≠ ID_WAVE
    · simp [h1] at hr
    · push_neg at h1
      by_cases h2 : h.audio_format ≠ FORMAT_PCM
      · simp [h1, h2] at hr
      · by_cases h3 : h.data_id ≠ ID_DATA
        · simp [h1, h2, h3] at hr
        · by_cases h4 : h.num_channels > 2
          · simp [h1, h2, h3, h4] at hr
          · push_neg at h2 h3 h4
            exact ⟨h1.1, h1.2, h2, h3, h4⟩
  · rintro ⟨h1, h2, h3, h4, h5⟩
    have hok : WavFile.Open fileLen h = Except.ok
        ⟨h.bits_per_sample / 8 * h.num_channels, (fileLen : Int) - (wavHeaderSize : Int)⟩ := by
      simp [WavFile.Open, hnlt, h1, h2, h3, h4, Nat.not_lt.mpr h5]
    exact ⟨_, hok⟩

/-- Witness for the amended C7 at a concrete input: a fully valid
stereo 16-bit header in a 100-byte file is accepted. -/
theorem open_ok_iff_witness :
    (∃ r, WavFile.Open 100
      { riff_id := ID_RIFF, riff_sz := 92, riff_fmt := ID_WAVE,
        fmt_id := 0x20746d66, fmt_sz := 16, audio_format := FORMAT_PCM,
        num_channels := 2, sample_rate := 44100, byte_rate := 176400,
        block_align := 4, bits_per_sample := 16, data_id := ID_DATA,
        data_sz := 56 } = Except.ok r) := by
  exact (open_ok_iff 100 _ (by decide)).mpr (by decide)

/-- The transport state `Player::State` (kplay.cpp line 220). -/
inductive TState where
  | STOPPED
  | PLAYING
deriving DecidableEq

/-- Calls the key switch of `Player::MsgHdl` makes into the lark route
(`m_route->Stop/Start`, `SetParameter` on the fade-out, soundtouch and
gain blocks) or into the wav file (`SeekToBegin`).  A `gain` push
carries the `(channel index, value)` pairs passed as the argument list
of `BLKGAIN_PARAMID_GAIN`. -/
inductive Push where
  | routeStop
  | routeStart
  | seekToBegin
  | triggerFadeOut
  | pitch (v : ℚ)
  | tempo (v : ℚ)
  | gain (entries : List (Nat × ℚ))
deriving DecidableEq

/-- The mutable playback parameters of `Player` (kplay.cpp lines
201-221), with `double` modelled exactly over `ℚ`. -/
structure PState where
  pitch : ℚ
  tempo : ℚ
  volL : ℚ
  volR : ℚ
  volMaster : ℚ
  mute : Bool
  chNum : Nat
  transport : TState
deriving DecidableEq

/-- The factor `(m_mute ? 0.0 : 1.0)` used in the gain pushes. -/
def muteFactor (m : Bool) : ℚ := if m then 0 else 1

/-- The `ON_KEY` switch of `Player::MsgHdl` (kplay.cpp lines 276-448):
given the current player state and the key character, returns the new
state together with the route calls issued, in order.  Unrecognized
keys fall through to the default case and do nothing.  Constants: 0.01
= 1/100, 1.01 = 101/100, 0.99 = 99/100, `PITCH_MIN` = `TEMPO_MIN` =
0.1 = 1/10, `PITCH_MAX` = 100, `TEMPO_MAX` = 30. -/
def onKey (s : PState) (k : Char) : PState × List Push :=
  if k = 'c' then
    (s, [Push.routeStop])
  else if k = 'z' then
    (s, [Push.seekToBegin])
  else if k = 'x' then
    (s, if s.transport = TState.STOPPED then [Push.routeStart] else [Push.triggerFadeOut])
  else if k = 'r' then
    if 100 ≤ s.pitch then (s, [])
    else ({ s with pitch := min (s.pitch * (101/100)) 100 },
      [Push.pitch (min (s.pitch * (101/100)) 100)])
  else if k = 'f' then
    if s.pitch ≤ 1/10 then (s, [])
    else ({ s with pitch := max (s.pitch * (99/100)) (1/10) },
      [Push.pitch (max (s.pitch * (99/100)) (1/10))])
  else if k = 'v' then
    ({ s with pitch := 1 }, [Push.pitch 1])
  else if k = 't' then
    if 30 ≤ s.tempo then (s, [])
    else ({ s with tempo := min (s.tempo * (101/100)) 30 },
      [Push.tempo (min (s.tempo * (101/100)) 30)])
  else if k = 'g' then
    if s.tempo ≤ 1/10 then (s, [])
    else ({ s with tempo := max (s.tempo * (99/100)) (1/10) },
      [Push.tempo (max (s.tempo * (99/100)) (1/10))])
  else if k = 'b' then
    ({ s with tempo := 1 }, [Push.tempo 1])
  else if k = 'e' then
    if s.chNum = 1 then (s, [])
    else if s.volR < 1 then
      ({ s with volR := min (s.volR + 1/100) 1 },
        [Push.gain [(1, min (s.volR + 1/100) 1 * s.volMaster * muteFactor s.mute)]])
    else if s.volL = 0 then (s, [])
    else
      ({ s with volL := max (s.volL - 1/100) 0 },
        [Push.gain [(0, max (s.volL - 1/100) 0 * s.volMaster * muteFactor s.mute)]])
  else if k = 'q' then
    if s.chNum = 1 then (s, [])
    else if s.volL < 1 then
      ({ s with volL := min (s.volL + 1/100) 1 },
        [Push.gain [(0, min (s.volL + 1/100) 1 * s.volMaster * muteFactor s.mute)]])
    else if s.volR = 0 then (s, [])
    else
      ({ s with volR := max (s.volR - 1/100) 0 },
        [Push.gain [(1, max (s.volR - 1/100) 0 * s.volMaster * muteFactor s.mute)]])
  else if k = 'w' then
    if s.chNum = 1 then (s, [])
    else if s.volL = 1 ∧ s.volR = 1 then (s, [])
    else
      ({ s with volL := 1, volR := 1 },
        [Push.gain ((0, 1 * s.volMaster * muteFactor s.mute) ::
          (if s.chNum = 2 then [(1, 1 * s.volMaster * muteFactor s.mute)] else []))])
  else if k = 'd' then
    ({ s with mute := !s.mute },
      [Push.gain ((0, s.volL * s.volMaster * muteFactor (!s.mute)) ::
        (if s.chNum = 2 then [(1, s.volR * s.volMaster * muteFactor (!s.mute))] else []))])
  else if k = 'a' then
    if s.volMaster = 0 then (s, [])
    else
      ({ s with volMaster := max (s.volMaster - 1/100) 0, mute := decide (max (s.volMaster - 1/100) 0 = 0) },
        [Push.gain ((0, s.volL * max (s.volMaster - 1/100) 0) ::
          (if s.chNum = 2 then [(1, s.volR * max (s.volMaster - 1/100) 0)] else []))])
  else if k = 's' then
    if s.volMaster = 1 then (s, [])
    else
      ({ s with volMaster := min (s.volMaster + 1/100) 1, mute := decide (min (s.volMaster + 1/100) 1 = 0) },
        [Push.gain ((0, s.volL * min (s.volMaster + 1/100) 1) ::
          (if s.chNum = 2 then [(1, s.volR * min (s.volMaster + 1/100) 1)] else []))])
  else (s, [])

/-- Fold `onKey` over a list of processed key events, keeping only the
resulting state. -/
def applyKeys (s : PState) (ks : List Char) : PState :=
  ks.foldl (fun t k => (onKey t k).1) s

/-- The default playback state (kplay.cpp lines 201-221: all values at
unity, not muted, stopped, mode-independent), with the channel count
`ch` as set from the wav header in `Player::Go`. -/
def initPlayer (ch : Nat) : PState :=
  { pitch := 1, tempo := 1, volL := 1, volR := 1, volMaster := 1,
    mute := false, chNum := ch, transport := TState.STOPPED }

/-- The gain value `b * v` the volume keys push coincides with
`b * v * (mute ? 0 : 1)` when the mute flag is `(v == 0)`. -/
theorem mul_muteFactor_decide (b v : ℚ) :
    b * v = b * v * muteFactor (decide (v = 0)) := by
  by_cases h : v = 0
  · simp [h, muteFactor]
  · simp [h, muteFactor]

/-- C2: for every master-volume up/down key ('s'/'a') whose guard
passes (volume not already at the clamp the key moves away from),
starting from a master volume in [0,1]: the master volume moves by a
0.01 step clamped to [0,1], the mute flag is re-derived so that
reaching 0 sets mute (and the flag holds exactly when the new volume
is 0), and the single gain push carries, for channel 0 (left) and — on
stereo — channel 1 (right), exactly
`channelBalance * masterVolume * (muted ? 0 : 1)` at the new state. -/
theorem master_volume_key (s : PState) (k : Char)
    (hb0 : 0 ≤ s.volMaster) (hb1 : s.volMaster ≤ 1)
    (hk : (k = 'a' ∧ s.volMaster ≠ 0) ∨ (k = 's' ∧ s.volMaster ≠ 1)) :
    0 ≤ (onKey s k).1.volMaster ∧ (onKey s k).1.volMaster ≤ 1 ∧
    (k = 'a' → (onKey s k).1.volMaster = max (s.volMaster - 1/100) 0) ∧
    (k = 's' → (onKey s k).1.volMaster = min (s.volMaster + 1/100) 1) ∧
    ((onKey s k).1.mute = true ↔ (onKey s k).1.volMaster = 0) ∧
    (onKey s k).2 =
      [Push.gain ((0, (onKey s k).1.volL * (onKey s k).1.volMaster *
          muteFactor (onKey s k).1.mute) ::
        (if s.chNum = 2 then
          [(1, (onKey s k).1.volR * (onKey s k).1.volMaster *
            muteFactor (onKey s k).1.mute)] else []))] := by
  rcases hk with ⟨hka, hvm⟩ | ⟨hks, hvm⟩
  · subst hka
    have hEq : onKey s 'a' =
        ({ s with volMaster := max (s.volMaster - 1/100) 0, mute := decide (max (s.volMaster - 1/100) 0 = 0) },
          [Push.gain ((0, s.volL * max (s.volMaster - 1/100) 0) ::
            (if s.chNum = 2 then [(1, s.volR * max (s.volMaster - 1/100) 0)] else []))]) := by
      simp [onKey, hvm]
    rw [hEq]
    refine ⟨le_max_right _ _, ?_, fun _ => rfl, ?_, ?_, ?_⟩
    · exact max_le (by linarith) (by norm_num)
    · intro h; exact absurd h (by decide)
    · simp
    · rw [← mul_muteFactor_decide s.volL (max (s.volMaster - 1/100) 0),
        ← mul_muteFactor_decide s.volR (max (s.volMaster - 1/100) 0)]
  · subst hks
    have hEq : onKey s 's' =
        ({ s with volMaster := min (s.volMaster + 1/100) 1, mute := decide (min (s.volMaster + 1/100) 1 = 0) },
          [Push.gain ((0, s.volL * min (s.volMaster + 1/100) 1) ::
            (if s.chNum = 2 then [(1, s.volR * min (s.volMaster + 1/100) 1)] else []))]) := by
      simp [onKey, hvm]
    rw [hEq]
    refine ⟨?_, min_le_right _ _, ?_, fun _ => rfl, ?_, ?_⟩
    · exact le_min (by linarith) (by norm_num)
    · intro h; exact absurd h (by decide)
    · simp
    · rw [← mul_muteFactor_decide s.volL (min (s.volMaster + 1/100) 1),
        ← mul_muteFactor_decide s.volR (min (s.volMaster + 1/100) 1)]

/-- A concrete stereo playback state used to instantiate the
master-volume theorem: balance (1, 3/4), master volume 1/2, unmuted. -/
def volKeyDemoState : PState :=
  { pitch := 1, tempo := 1, volL := 1, volR := 3/4, volMaster := 1/2,
    mute := false, chNum := 2, transport := TState.PLAYING }

/-- Witness for C2 at a concrete input: volume-down ('a') from master
volume 1/2 on the demo stereo state. -/
theorem master_volume_key_witness :
    0 ≤ (onKey volKeyDemoState 'a').1.volMaster ∧
    (onKey volKeyDemoState 'a').1.volMaster ≤ 1 ∧
    ('a' = 'a' → (onKey volKeyDemoState 'a').1.volMaster =
      max (volKeyDemoState.volMaster - 1/100) 0) ∧
    ('a' = 's' → (onKey volKeyDemoState 'a').1.volMaster =
      min (volKeyDemoState.volMaster + 1/100) 1) ∧
    ((onKey volKeyDemoState 'a').1.mute = true ↔
      (onKey volKeyDemoState 'a').1.volMaster = 0) ∧
    (onKey volKeyDemoState 'a').2 =
      [Push.gain ((0, (onKey volKeyDemoState 'a').1.volL *
          (onKey volKeyDemoState 'a').1.volMaster *
          muteFactor (onKey volKeyDemoState 'a').1.mute) ::
        (if volKeyDemoState.chNum = 2 then
          [(1, (onKey volKeyDemoState 'a').1.volR *
            (onKey volKeyDemoState 'a').1.volMaster *
            muteFactor (onKey volKeyDemoState 'a').1.mute)] else []))] :=
  master_volume_key volKeyDemoState 'a' (by norm_num [volKeyDemoState])
    (by norm_num [volKeyDemoState]) (Or.inl ⟨rfl, by norm_num [volKeyDemoState]⟩)

/-- Invariant on the balance fields: both channel multipliers stay in
[0,1] and at least one of them equals 1. -/
def balInv (s : PState) : Prop :=
  0 ≤ s.volL ∧ s.volL ≤ 1 ∧ 0 ≤ s.volR ∧ s.volR ≤ 1 ∧ (s.volL = 1 ∨ s.volR = 1)

/-- Every processed key preserves the balance invariant. -/
theorem balInv_onKey (s : PState) (k : Char) (h : balInv s) : balInv (onKey s k).1 := by
  obtain ⟨h0, h1, h2, h3, h4⟩ := h
  by_cases hkc : k = 'c'
  · subst hkc; simp [onKey]; exact ⟨h0, h1, h2, h3, h4⟩
  by_cases hkz : k = 'z'
  · subst hkz; simp [onKey]; exact ⟨h0, h1, h2, h3, h4⟩
  by_cases hkx : k = 'x'
  · subst hkx; simp [onKey]; exact ⟨h0, h1, h2, h3, h4⟩
  by_cases hkr : k = 'r'
  · subst hkr; simp only [onKey]; simp
    split_ifs <;> exact ⟨h0, h1, h2, h3, h4⟩
  by_cases hkf : k = 'f'
  · subst hkf; simp only [onKey]; simp
    split_ifs <;> exact ⟨h0, h1, h2, h3, h4⟩
  by_cases hkv : k = 'v'
  · subst hkv; simp [onKey]; exact ⟨h0, h1, h2, h3, h4⟩
  by_cases hkt : k = 't'
  · subst hkt; simp only [onKey]; simp
    split_ifs <;> exact ⟨h0, h1, h2, h3, h4⟩
  by_cases hkg : k = 'g'
  · subst hkg; simp only [onKey]; simp
    split_ifs <;> exact ⟨h0, h1, h2, h3, h4⟩
  by_cases hkb : k = 'b'
  · subst hkb; simp [onKey]; exact ⟨h0, h1, h2, h3, h4⟩
  by_cases hke : k = 'e'
  · subst hke; simp only [onKey]; simp
    split_ifs with hch hvr hvl
    · exact ⟨h0, h1, h2, h3, h4⟩
    · exact ⟨h0, h1, le_min (by linarith) (by norm_num), min_le_right _ _,
        Or.inl (by rcases h4 with h5 | h5 <;> linarith)⟩
    · exact ⟨h0, h1, h2, h3, h4⟩
    · exact ⟨le_max_right _ _, max_le (by linarith) (by norm_num), h2, h3,
        Or.inr (by linarith)⟩
  by_cases hkq : k = 'q'
  · subst hkq; simp only [onKey]; simp
    split_ifs with hch hvl hvr
    · exact ⟨h0, h1, h2, h3, h4⟩
    · exact ⟨le_min (by linarith) (by norm_num), min_le_right _ _, h2, h3,
        Or.inr (by rcases h4 with h5 | h5 <;> linarith)⟩
    · exact ⟨h0, h1, h2, h3, h4⟩
    · exact ⟨h0, h1, le_max_right _ _,
        max_le (by linarith) (by norm_num), Or.inl (by linarith)⟩
  by_cases hkw : k = 'w'
  · subst hkw; simp only [onKey]; simp
    split_ifs
    · exact ⟨h0, h1, h2, h3, h4⟩
    · exact ⟨h0, h1, h2, h3, h4⟩
    · exact ⟨by norm_num, by norm_num, by norm_num, by norm_num, Or.inl rfl⟩
    · exact ⟨by norm_num, by norm_num, by norm_num, by norm_num, Or.inl rfl⟩
  by_cases hkd : k = 'd'
  · subst hkd; simp [onKey]; exact ⟨h0, h1, h2, h3, h4⟩
  by_cases hka : k = 'a'
  · subst hka; simp only [onKey]; simp
    split_ifs <;> exact ⟨h0, h1, h2, h3, h4⟩
  by_cases hks : k = 's'
  · subst hks; simp only [onKey]; simp
    split_ifs <;> exact ⟨h0, h1, h2, h3, h4⟩
  simp [onKey, hkc, hkz, hkx, hkr, hkf, hkv, hkt, hkg, hkb, hke, hkq, hkw,
    hkd, hka, hks]
  exact ⟨h0, h1, h2, h3, h4⟩

/-- The balance invariant is preserved by any sequence of keys. -/
theorem balInv_applyKeys (s : PState) (keys : List Char) (h : balInv s) :
    balInv (applyKeys s keys) := by
  induction keys generalizing s with
  | nil => exact h
  | cons k ks ih => exact ih _ (balInv_onKey s k h)

/-- C4: in every state reachable by processed key events from the
defaults, at least one of the two channel multipliers equals 1; and
the mute toggle ('d') changes neither the stored balance multipliers
nor the master volume in any state, so toggling it twice restores the
whole state (un-mute restores the exact prior multipliers). -/
theorem balance_invariant_mute_preserving (ch : Nat) (keys : List Char) (s : PState) :
    ((applyKeys (initPlayer ch) keys).volL = 1 ∨
      (applyKeys (initPlayer ch) keys).volR = 1) ∧
    ((onKey s 'd').1.volL = s.volL ∧ (onKey s 'd').1.volR = s.volR ∧
      (onKey s 'd').1.volMaster = s.volMaster) ∧
    (onKey (onKey s 'd').1 'd').1 = s := by
  refine ⟨?_, ?_, ?_⟩
  · have hinit : balInv (initPlayer ch) := by
      refine ⟨?_, ?_, ?_, ?_, Or.inl rfl⟩ <;> norm_num [initPlayer]
    exact (balInv_applyKeys (initPlayer ch) keys hinit).2.2.2.2
  · simp [onKey]
  · cases s
    simp [onKey]

/-- Single balance-right step at `volR = 1`, `volL ≠ 0` on a stereo
state: only the left multiplier moves, down by 0.01 clamped at 0. -/
theorem onKey_e_decrement (s : PState) (hch : s.chNum = 2) (hvr : s.volR = 1)
    (hvl : s.volL ≠ 0) :
    (onKey s 'e').1 = { s with volL := max (s.volL - 1/100) 0 } := by
  simp [onKey, hch, hvr, hvl]

/-- Balance-right is a no-op once `volR = 1` and `volL = 0`. -/
theorem onKey_e_fixed (s : PState) (hch : s.chNum = 2) (hvr : s.volR = 1)
    (hvl : s.volL = 0) :
    onKey s 'e' = (s, []) := by
  simp [onKey, hch, hvr, hvl]

/-- `applyKeys` splits over list append. -/
theorem applyKeys_append (s : PState) (l1 l2 : List Char) :
    applyKeys s (l1 ++ l2) = applyKeys (applyKeys s l1) l2 :=
  List.foldl_append _ _ _ _

/-- After `k ≤ 100` balance-right keys from the stereo defaults, the
left multiplier is exactly `1 - k/100` and nothing else changed. -/
theorem balance_right_iter (k : Nat) (hk : k ≤ 100) :
    applyKeys (initPlayer 2) (List.replicate k 'e') =
      { initPlayer 2 with volL := 1 - (k : ℚ)/100 } := by
  induction k with
  | zero =>
    show initPlayer 2 = _
    norm_num [initPlayer]
  | succ n ih =>
    have hn : n ≤ 100 := Nat.le_of_succ_le hk
    have hn' : (n : ℚ) < 100 := by exact_mod_cast Nat.lt_of_succ_le hk
    have hsucc : ((n : ℚ) + 1) ≤ 100 := by exact_mod_cast hk
    have hvl : (1 : ℚ) - (n : ℚ)/100 ≠ 0 := by
      intro h
      have h1 : (n : ℚ)/100 < 1 := by linarith
      linarith
    rw [List.replicate_succ', applyKeys_append, ih hn]
    have hstep := onKey_e_decrement { initPlayer 2 with volL := 1 - (n : ℚ)/100 }
      (by simp [initPlayer]) (by simp [initPlayer]) (by simpa [initPlayer] using hvl)
    show (onKey { initPlayer 2 with volL := 1 - (n : ℚ)/100 } 'e').1 = _
    rw [hstep]
    have harith : max ((1 : ℚ) - (n : ℚ)/100 - 1/100) 0 = 1 - ((n : ℚ) + 1)/100 := by
      rw [max_eq_left (by linarith)]
      ring
    simp only [initPlayer]
    push_cast
    rw [harith]

/-- C9: from the stereo defaults (1.0, 1.0), 100 balance-right keys
leave the right multiplier at exactly 1.0 and drive the left
multiplier to exactly 0.0, and any number of further balance-right
keys leaves the state (in particular both multipliers) unchanged. -/
theorem balance_right_hundred (m : Nat) :
    (applyKeys (initPlayer 2) (List.replicate 100 'e')).volL = 0 ∧
    (applyKeys (initPlayer 2) (List.replicate 100 'e')).volR = 1 ∧
    applyKeys (initPlayer 2) (List.replicate (100 + m) 'e') =
      applyKeys (initPlayer 2) (List.replicate 100 'e') := by
  have h100 : applyKeys (initPlayer 2) (List.replicate 100 'e') =
      { initPlayer 2 with volL := 0 } := by
    have := balance_right_iter 100 (le_refl 100)
    norm_num at this
    exact this
  refine ⟨by rw [h100], by rw [h100]; rfl, ?_⟩
  rw [List.replicate_add, applyKeys_append, h100]
  induction m with
  | zero => rfl
  | succ p ih =>
    rw [List.replicate_succ', applyKeys_append, ih]
    show (onKey { initPlayer 2 with volL := 0 } 'e').1 = _
    rw [onKey_e_fixed { initPlayer 2 with volL := 0 }
      (by simp [initPlayer]) (by simp [initPlayer]) (by simp [initPlayer])]

/-- The playback mode `Player::Mode` (kplay.cpp line 201). -/
inductive Mode where
  | NORMAL
  | REPEAT
  | NONINTERACTIVE
deriving DecidableEq

/-- `lark::Route::StopReason`, with the three reasons distinguished by
the control design: user-requested stop, end of stream, engine error.
The code only ever names `USER_STOP`; both other reasons reach the
same `reason != USER_STOP` branch. -/
inductive StopReason where
  | USER_STOP
  | END_OF_STREAM
  | ERROR
deriving DecidableEq

/-- `Player::Message` (kplay.cpp lines 223-227). -/
inductive Msg where
  | ON_KEY (k : Char)
  | ON_STOPPED
  | ON_STARTED
  | EXIT
deriving DecidableEq

/-- `Player::OnStopped` (kplay.cpp lines 961-974): the list of
messages it enqueues into `m_msgQ`, in order.  It always enqueues
`ON_STOPPED`; when the reason is not `USER_STOP` it also enqueues the
seek-to-begin key 'z' and, unless the mode is `NORMAL`, one more key:
'x' (play) in `REPEAT` mode, 'c' (exit) otherwise. -/
def onStopped (mode : Mode) (reason : StopReason) : List Msg :=
  Msg.ON_STOPPED ::
    (if reason ≠ StopReason.USER_STOP then
      Msg.ON_KEY 'z' ::
        (if mode = Mode.NORMAL then []
         else [Msg.ON_KEY (if mode = Mode.REPEAT then 'x' else 'c')])
    else [])

/-- The non-key message cases of `Player::MsgHdl` (kplay.cpp lines
450-460): `ON_STOPPED`/`ON_STARTED` set the transport state, `EXIT`
leaves the state (it only breaks the loop), keys go to `onKey`. -/
def msgStep (s : PState) (m : Msg) : PState × List Push :=
  match m with
  | Msg.ON_KEY k => onKey s k
  | Msg.ON_STOPPED => ({ s with transport := TState.STOPPED }, [])
  | Msg.ON_STARTED => ({ s with transport := TState.PLAYING }, [])
  | Msg.EXIT => (s, [])

/-- Fold `msgStep` over a list of messages, keeping the state. -/
def applyMsgs (s : PState) (ms : List Msg) : PState :=
  ms.foldl (fun t m => (msgStep t m).1) s

/-- C3: on `EngineStopped(EndOfStream)` the actor enqueues `ON_STOPPED`
and synthesizes a seek-to-begin key 'z'; in Normal mode nothing
further (and processing that sequence leaves the transport Stopped),
in Repeat mode a play key 'x', in NonInteractive mode an exit key 'c'. -/
theorem on_stopped_end_of_stream (s : PState) :
    onStopped Mode.NORMAL StopReason.END_OF_STREAM =
      [Msg.ON_STOPPED, Msg.ON_KEY 'z'] ∧
    onStopped Mode.REPEAT StopReason.END_OF_STREAM =
      [Msg.ON_STOPPED, Msg.ON_KEY 'z', Msg.ON_KEY 'x'] ∧
    onStopped Mode.NONINTERACTIVE StopReason.END_OF_STREAM =
      [Msg.ON_STOPPED, Msg.ON_KEY 'z', Msg.ON_KEY 'c'] ∧
    (applyMsgs s (onStopped Mode.NORMAL StopReason.END_OF_STREAM)).transport =
      TState.STOPPED := by
  refine ⟨rfl, rfl, rfl, ?_⟩
  simp [applyMsgs, msgStep, onStopped, onKey]

/-- C5 counterexample: `EngineStopped(Error)` is not handled like
`EngineStopped(UserRequested)` — in Normal mode the former also
synthesizes the seek-to-begin key. -/
theorem error_differs_from_user_stop :
    onStopped Mode.NORMAL StopReason.ERROR ≠
      onStopped Mode.NORMAL StopReason.USER_STOP := by
  decide

/-- C5 (amended): `EngineStopped(Error)` is treated identically to
`EngineStopped(EndOfStream)` in every mode (the code branches only on
`reason != USER_STOP`); it is `UserRequested`, not `Error`, that
suppresses the synthesized follow-up events. -/
theorem error_treated_as_end_of_stream (mode : Mode) :
    onStopped mode StopReason.ERROR = onStopped mode StopReason.END_OF_STREAM := by
  cases mode <;> rfl

/-- The numeric startup configuration mutated by the `-v`, `-p`, `-t`
option handlers of `Player::Go`. -/
structure CliNum where
  volMaster : ℚ
  pitch : ℚ
  tempo : ℚ
  mute : Bool
deriving DecidableEq

/-- Defaults of the numeric startup configuration (kplay.cpp lines
204-216). -/
def cliDefaults : CliNum :=
  { volMaster := 1, pitch := 1, tempo := 1, mute := false }

/-- The `-v` option handler (kplay.cpp lines 541-553).  `none` models
`return -1` (session aborts); the `Bool` is whether a clamping warning
was printed.  A negative value is a hard error; zero sets mute; a
value above 1 is clamped to 1 with a warning. -/
def handleVolumeOpt (v : ℚ) (s : CliNum) : Option (CliNum × Bool) :=
  if v < 0 then none
  else if v = 0 then some ({ s with volMaster := v, mute := true }, false)
  else if v > 1 then some ({ s with volMaster := 1 }, true)
  else some ({ s with volMaster := v }, false)

/-- The `-p` option handler (kplay.cpp lines 554-567).  Exactly zero is
a hard error; above `PITCH_MAX` = 100 or below `PITCH_MIN` = 0.1
(including negatives) is clamped with a warning. -/
def handlePitchOpt (p : ℚ) (s : CliNum) : Option (CliNum × Bool) :=
  if p = 0 then none
  else if p > 100 then some ({ s with pitch := 100 }, true)
  else if p < 1/10 then some ({ s with pitch := 1/10 }, true)
  else some ({ s with pitch := p }, false)

/-- The `-t` option handler (kplay.cpp lines 568-581).  Exactly zero is
a hard error; above `TEMPO_MAX` = 30 or below `TEMPO_MIN` = 0.1
(including negatives) is clamped with a warning. -/
def handleTempoOpt (t : ℚ) (s : CliNum) : Option (CliNum × Bool) :=
  if t = 0 then none
  else if t > 30 then some ({ s with tempo := 30 }, true)
  else if t < 1/10 then some ({ s with tempo := 1/10 }, true)
  else some ({ s with tempo := t }, false)

/-- C6 counterexample: a negative pitch (-1) is clamped to 0.1 with a
warning and the program continues — not a hard error as claimed —
while a negative volume (-1) is a hard error — not clamped with a
warning as claimed. -/
theorem cli_negative_args_counterexample :
    handlePitchOpt (-1) cliDefaults = some ({ cliDefaults with pitch := 1/10 }, true) ∧
    handleVolumeOpt (-1) cliDefaults = none := by
  constructor
  · norm_num [handlePitchOpt]
  · norm_num [handleVolumeOpt]

/-- C6 (amended): values above the maximum (volume 1, pitch 100, tempo
30) are clamped with a warning and the session continues; pitch/tempo
below 0.1 — negatives included — are clamped to 0.1 with a warning;
the hard errors aborting the session are a pitch or tempo of exactly
zero and a negative volume; zero volume is accepted and sets mute;
in-range values are taken unchanged without warning. -/
theorem cli_numeric_policy (x : ℚ) (s : CliNum) :
    (x < 0 → handleVolumeOpt x s = none) ∧
    (x > 1 → handleVolumeOpt x s = some ({ s with volMaster := 1 }, true)) ∧
    (0 < x → x ≤ 1 → handleVolumeOpt x s = some ({ s with volMaster := x }, false)) ∧
    (handleVolumeOpt 0 s = some ({ s with volMaster := 0, mute := true }, false)) ∧
    (handlePitchOpt 0 s = none) ∧
    (handleTempoOpt 0 s = none) ∧
    (x ≠ 0 → x < 1/10 → handlePitchOpt x s = some ({ s with pitch := 1/10 }, true)) ∧
    (x > 100 → handlePitchOpt x s = some ({ s with pitch := 100 }, true)) ∧
    (1/10 ≤ x → x ≤ 100 → handlePitchOpt x s = some ({ s with pitch := x }, false)) ∧
    (x ≠ 0 → x < 1/10 → handleTempoOpt x s = some ({ s with tempo := 1/10 }, true)) ∧
    (x > 30 → handleTempoOpt x s = some ({ s with tempo := 30 }, true)) ∧
    (1/10 ≤ x → x ≤ 30 → handleTempoOpt x s = some ({ s with tempo := x }, false)) := by
  refine ⟨?_, ?_, ?_, ?_, ?_, ?_, ?_, ?_, ?_, ?_, ?_, ?_⟩ <;>
    intros <;>
    simp only [handleVolumeOpt, handlePitchOpt, handleTempoOpt] <;>
    split_ifs <;>
    first
      | rfl
      | (exfalso; first | linarith | simp_all)

/-- Witness for the amended C6 at concrete inputs: volume 2 clamps to
1 with a warning, pitch -2 clamps to 0.1 with a warning, tempo 31
clamps to 30 with a warning, and in-range pitch 1/2 passes through. -/
theorem cli_numeric_policy_witness :
    handleVolumeOpt 2 cliDefaults = some ({ cliDefaults with volMaster := 1 }, true) ∧
    handlePitchOpt (-2) cliDefaults = some ({ cliDefaults with pitch := 1/10 }, true) ∧
    handleTempoOpt 31 cliDefaults = some ({ cliDefaults with tempo := 30 }, true) ∧
    handlePitchOpt (1/2) cliDefaults = some ({ cliDefaults with pitch := 1/2 }, false) := by
  refine ⟨?_, ?_, ?_, ?_⟩
  · exact (cli_numeric_policy 2 cliDefaults).2.1 (by norm_num)
  · exact (cli_numeric_policy (-2) cliDefaults).2.2.2.2.2.2.1 (by norm_num) (by norm_num)
  · exact (cli_numeric_policy 31 cliDefaults).2.2.2.2.2.2.2.2.2.2.1 (by norm_num)
  · exact (cli_numeric_policy (1/2) cliDefaults).2.2.2.2.2.2.2.2.1 (by norm_num) (by norm_num)

/-- The key character the loop works with: a negative `getchar` result
is replaced by 'c', otherwise the value is cast to `char`
(kplay.cpp lines 929-931). -/
def keyOfInput (k : Int) : Char :=
  if k < 0 then 'c' else Char.ofNat k.toNat

/-- The keyboard-reading loop of `Player::Go` (kplay.cpp lines
927-940) over a finite list of `getchar` results: returns the key
characters enqueued as `ON_KEY` messages, in order, and whether the
loop terminated (it breaks right after enqueuing 'c'; an exhausted
input list without 'c' leaves the loop still blocked). -/
def keyboardLoop : List Int → List Char × Bool
  | [] => ([], false)
  | k :: rest =>
    if keyOfInput k = 'c' then ([keyOfInput k], true)
    else (keyOfInput k :: (keyboardLoop rest).1, (keyboardLoop rest).2)

/-- C10: a failed `getchar` (negative result, i.e. end-of-file or
error) makes the loop enqueue the exit key 'c' and terminate — exactly
the behavior of an explicit user 'c' (character code 99) at the same
point. -/
theorem getchar_failure_is_exit (k : Int) (rest : List Int) (hk : k < 0) :
    keyboardLoop (k :: rest) = (['c'], true) ∧
    keyboardLoop (k :: rest) = keyboardLoop (99 :: rest) := by
  have h1 : keyOfInput k = 'c' := by simp [keyOfInput, hk]
  have h2 : keyOfInput 99 = 'c' := by decide
  constructor
  · simp [keyboardLoop, h1]
  · simp [keyboardLoop, h1, h2]

/-- Witness for C10 at a concrete input: `getchar` returning -1 with
more input pending behaves as the exit key. -/
theorem getchar_failure_is_exit_witness :
    keyboardLoop (-1 :: [97]) = (['c'], true) ∧
    keyboardLoop (-1 :: [97]) = keyboardLoop (99 :: [97]) :=
  getchar_failure_is_exit (-1) [97] (by norm_num)

end KPlay
